import Mathlib

/-!
Verification development for the ZonalClimateAnalyzer website repository.

The Python sources `ZonalClimateAnalyzer.py` and `api/server.py` are shallowly
embedded below.  Python strings are modelled as `List Char` (a Python `str` is a
sequence of code points), numeric timestamps as integers, and the filesystem /
process environment as explicit parameters.  Fallible code returns `Except`.
-/

namespace ZCA

/-- Characters of a Python string; a Python `str` is a sequence of code points. -/
abbrev Str := List Char

/-- Model of `pathlib.Path(file).name` for paths without a trailing separator:
the part of the string after the last `'/'`. -/
def pathName (s : Str) : Str :=
  (s.reverse.takeWhile (fun c => c ≠ '/')).reverse

/-- Auxiliary scanner for `replaceAll`.  `skip > 0` means the current character
belongs to an occurrence of the pattern that has already been replaced, so it is
consumed without being emitted.  Structural recursion on the scanned list. -/
def replaceAllAux (pat rep : Str) : Nat → Str → Str
  | _, [] => []
  | n + 1, _ :: rest => replaceAllAux pat rep n rest
  | 0, c :: rest =>
    if pat.isPrefixOf (c :: rest) then
      rep ++ replaceAllAux pat rep (pat.length - 1) rest
    else
      c :: replaceAllAux pat rep 0 rest

/-- Model of Python `str.replace(pat, rep)` for a non-empty pattern: every
non-overlapping occurrence of `pat`, scanning left to right, is replaced by
`rep`.  (Python's behaviour for an empty pattern is irrelevant here: the code
only replaces the fixed non-empty prefix `grids_germany_annual_`.) -/
def replaceAll (pat rep s : Str) : Str :=
  if pat = [] then s else replaceAllAux pat rep 0 s

/-- Does `pat` occur as a contiguous substring of `s`?  Used to state when
`str.replace` leaves a string unchanged. -/
def hasSubstr (pat : Str) : Str → Bool
  | [] => pat.isPrefixOf []
  | c :: rest => pat.isPrefixOf (c :: rest) || hasSubstr pat rest

/-- The `for suffix in (".asc.gz", ".zip", ".asc", ".tif"): if name.endswith
(suffix): name = name[:-len(suffix)]; break` loop of `rename_dwd_file`
(src/ZonalClimateAnalyzer.py lines 365-368): strip the first matching suffix. -/
def stripDwdSuffix (name : Str) : Str :=
  if ".asc.gz".data.isSuffixOf name then name.take (name.length - 7)
  else if ".zip".data.isSuffixOf name then name.take (name.length - 4)
  else if ".asc".data.isSuffixOf name then name.take (name.length - 4)
  else if ".tif".data.isSuffixOf name then name.take (name.length - 4)
  else name

/-- Model of Python `str.rstrip("_")`: remove trailing underscores. -/
def rstripUnderscore (s : Str) : Str :=
  (s.reverse.dropWhile (fun c => c = '_')).reverse

/-- Embedding of `rename_dwd_file` (src/ZonalClimateAnalyzer.py lines 356-374):
take the basename, delete every occurrence of `grids_germany_annual_`, strip the
first matching suffix among `.asc.gz`, `.zip`, `.asc`, `.tif`, keep a tail
`_1917` or `_2017` as is but otherwise drop a trailing `17`, strip trailing
underscores and append `.asc`. -/
def rename_dwd_file (file : Str) : Str :=
  let name := pathName file
  let name := replaceAll "grids_germany_annual_".data [] name
  let name := stripDwdSuffix name
  let name :=
    if "_1917".data.isSuffixOf name || "_2017".data.isSuffixOf name then name
    else if "17".data.isSuffixOf name then name.take (name.length - 2)
    else name
  let name := rstripUnderscore name
  name ++ ".asc".data

/-- Lower-casing of ASCII letters, modelling Python `str.lower()` on the ASCII
names handled here. -/
def toLowerStr (s : Str) : Str :=
  s.map Char.toLower

/-- Model of `pathlib.PurePath.suffix` on a path's final component: the part of
the name from the last dot on, empty when the name has no dot, starts with a
dot, or ends with a dot (pathlib requires `0 < i < len(name) - 1` for the index
`i` of the last dot). -/
def pathSuffix (base : Str) : Str :=
  let rev := base.reverse
  let k := rev.indexOf '.'
  if 0 < k ∧ k + 1 < rev.length then (rev.take (k + 1)).reverse else []

/-- Model of `pathlib.PurePath.stem`: the final component without its suffix. -/
def pathStem (p : Str) : Str :=
  let base := pathName p
  base.take (base.length - (pathSuffix base).length)

/-- The canonical local stem that `check_if_already_downloaded` expects for a
remote link: `Path(rename_dwd_file(Path(urlparse(link).path).name)).stem`.  For
the DWD links handled here (no query or fragment) the last `/`-component of the
URL is exactly `Path(urlparse(link).path).name`. -/
def expectedStem (link : Str) : Str :=
  pathStem (rename_dwd_file (pathName link))

/-- Embedding of `check_if_already_downloaded` (src/ZonalClimateAnalyzer.py
lines 171-189).  The raster directory is modelled by whether it exists and the
list of names of the files it contains; `raster_dir.glob "*.tif"` is modelled
as the files whose name ends in `.tif`. -/
def check_if_already_downloaded (raster_links : List Str) (dirExists : Bool)
    (files : List Str) : Bool :=
  if !dirExists || files.isEmpty then false
  else
    let tif_names := (files.filter (fun f => ".tif".data.isSuffixOf f)).map pathStem
    if tif_names.isEmpty then false
    else (raster_links.map expectedStem).all (fun e => tif_names.contains e)

/-- Input to `decompress_file`, with the parts of the filesystem and of the
`filetype` content sniffer that the function consults made explicit. -/
structure InputFile where
  /-- path of the file; only its final component matters to the function -/
  name : Str
  /-- extension reported by `filetype.guess`, `none` when undetected -/
  sniffed : Option Str
  /-- result of `zipfile.is_zipfile(path)` -/
  is_zipfile : Bool
  /-- `zf.namelist()` of the archive, meaningful when it is a ZIP -/
  zipNames : List Str
  /-- whether `gzip.open` succeeds in decompressing the bytes -/
  gzipValid : Bool

/-- Embedding of `decompress_file` (src/ZonalClimateAnalyzer.py lines 380-415).
Returns the (base)name of the file the call yields, or the error it raises.
`path.with_name(rename_dwd_file(path.name))` keeps the directory of the source
file; the directory part is elided here and the name component is modelled. -/
def decompress_file (f : InputFile) : Except Str Str :=
  let sfx := toLowerStr (pathSuffix (pathName f.name))
  if sfx = ".asc".data ∨ sfx = ".tif".data ∨
      f.sniffed = some "asc".data ∨ f.sniffed = some "tif".data then
    .ok (pathName f.name)
  else
    let out := rename_dwd_file (pathName f.name)
    if f.is_zipfile ∨ f.sniffed = some "zip".data ∨ sfx = ".zip".data then
      match f.zipNames.filter (fun m => ".asc".data.isSuffixOf (toLowerStr m)) with
      | [] => .error "No .asc file found in archive.".data
      | _ :: _ => .ok out
    else if f.gzipValid then .ok out
    else .error "BadGzipFile".data

/-- The `.asc` members of an archive as selected by `decompress_file`:
`[m for m in zf.namelist() if m.lower().endswith(".asc")]`. -/
def ascMembers (names : List Str) : List Str :=
  names.filter (fun m => ".asc".data.isSuffixOf (toLowerStr m))

/-- Embedding of `delete_raster_files` (src/ZonalClimateAnalyzer.py lines
462-479): remove from the folder every file matching `*.asc`, `*.asc.gz` or
`*.zip` (glob patterns on these names reduce to suffix tests); the surviving
files of the folder are returned.  Files matching none of the patterns — in
particular the georeferenced `*.tif` rasters — are untouched. -/
def delete_raster_files (files : List Str) : List Str :=
  files.filter (fun f =>
    !(".asc".data.isSuffixOf f || ".asc.gz".data.isSuffixOf f ||
      ".zip".data.isSuffixOf f))

/-- Lookup in a Python `dict` modelled as an insertion-ordered association
list. -/
def assocFind {κ α : Type} [DecidableEq κ] (k : κ) : List (κ × α) → Option α
  | [] => none
  | (k', v) :: rest => if k' = k then some v else assocFind k rest

/-- Update `d[k] = v` of a Python `dict` modelled as an insertion-ordered
association list: an existing key keeps its position, a new key is appended. -/
def assocSet {κ α : Type} [DecidableEq κ] (k : κ) (v : α) :
    List (κ × α) → List (κ × α)
  | [] => [(k, v)]
  | (k', v') :: rest =>
    if k' = k then (k', v) :: rest else (k', v') :: assocSet k v rest

/-- One iteration of the `for key, value in rasterstats_dict.items()` loop of
`zonal_climate_analysis` (src/ZonalClimateAnalyzer.py lines 650-655):
`name = key[:-5]`, `year = key[-4:]`, insert `value` under `name` then `year`. -/
def jsonInsert {α : Type} (tbl : List (Str × List (Str × α))) (key : Str)
    (v : α) : List (Str × List (Str × α)) :=
  let name := key.take (key.length - 5)
  let year := key.drop (key.length - 4)
  match assocFind name tbl with
  | none => tbl ++ [(name, [(year, v)])]
  | some inner => assocSet name (assocSet year v inner) tbl

/-- The nested statistics table `rasterstats_json` built by
`zonal_climate_analysis` (src/ZonalClimateAnalyzer.py lines 645-655) from the
ordered `(filename-stem, stats)` pairs of `rasterstats_dict`. -/
def build_rasterstats_json {α : Type} (entries : List (Str × α)) :
    List (Str × List (Str × α)) :=
  entries.foldl (fun t kv => jsonInsert t kv.1 kv.2) []

/-- Nested lookup `rasterstats_json[name][year]` in the built table. -/
def jsonLookup {α : Type} (tbl : List (Str × List (Str × α))) (name year : Str) :
    Option α :=
  (assocFind name tbl).bind (assocFind year)

/-- Modelled from the spec: the claim's keying rule "variable = all but the
last 4 characters" of the asset's canonical name.  Declared only to be compared
against the keying the code performs (`key[:-5]`). -/
def spec_variable_key (key : Str) : Str :=
  key.take (key.length - 4)

/-- One per-feature zonal-statistics record `{min, max, mean, count}` as
produced by `calculate_zonal_stats`.  The numeric values are opaque payload for
the table-shape claims, so integer fields suffice. -/
structure ZonalStats where
  min : Int
  max : Int
  mean : Int
  count : Nat
deriving DecidableEq

/-- State of the lock file at `LOCK_PATH`: absent, present but unreadable as a
JSON object (`_read_lock` returns `None`), or holding a record with optional
`pid` and `ts` fields (`none` models a missing or non-numeric field). -/
inductive LockFile where
  | absent
  | unreadable
  | record (pid : Option Int) (ts : Option Int)
deriving DecidableEq

/-- The `isinstance(pid, int) and _pid_is_alive(pid)` test of `_cleanup_lock`:
false for a missing or non-integer `pid` field. -/
def pidAlive (alive : Int → Bool) : Option Int → Bool
  | some p => alive p
  | none => false

/-- The `isinstance(ts, (int, float)) and now - ts < LOCK_TTL_SECONDS` test:
false for a missing or non-numeric `ts` field. -/
def tsFresh (now ttl : Int) : Option Int → Bool
  | some t => decide (now - t < ttl)
  | none => false

/-- Embedding of `_cleanup_lock` (src/api/server.py lines 139-158): an
unreadable lock file is removed; a record is kept when its pid is alive, kept
when its timestamp is younger than the TTL, and removed otherwise.  `alive`
models `_pid_is_alive` (existence of `/proc/<pid>`), `now` the current clock. -/
def cleanup_lock (alive : Int → Bool) (now ttl : Int) (lf : LockFile) : LockFile :=
  match lf with
  | .absent => .absent
  | .unreadable => .absent
  | .record pid ts =>
    if pidAlive alive pid then lf
    else if tsFresh now ttl ts then lf
    else .absent

/-- Embedding of entering the `_analysis_lock` context manager (src/api/server.py
lines 253-271): clean a stale lock, reject with HTTP 429 when a lock file with a
fresh timestamp remains, otherwise remove any leftover and write a new record
`{pid: os.getpid(), ts: now}`.  Returns the HTTP status of the raised
`HTTPException` or `.ok`, together with the lock-file state afterwards. -/
def analysis_lock_enter (alive : Int → Bool) (now ttl mypid : Int)
    (lf : LockFile) : Except Nat Unit × LockFile :=
  let lf1 := if lf ≠ .absent then cleanup_lock alive now ttl lf else lf
  match lf1 with
  | .record pid ts =>
    if tsFresh now ttl ts then
      (.error 429, .record pid ts)
    else
      (.ok (), .record (some mypid) (some now))
  | _ => (.ok (), .record (some mypid) (some now))

/-- Embedding of the `with _analysis_lock():` block of `_run_analyzer`
(src/api/server.py lines 497-511): when entering the lock raises, the pipeline
subprocess is not started; otherwise it runs and the `finally` clause unlinks
the lock.  The boolean records whether the subprocess was invoked. -/
def run_analyzer_locked (alive : Int → Bool) (now ttl mypid : Int)
    (lf : LockFile) : Bool × Except Nat Unit × LockFile :=
  match analysis_lock_enter alive now ttl mypid lf with
  | (.error c, lf') => (false, .error c, lf')
  | (.ok _, _) => (true, .ok (), .absent)

/-- One entry of a ZIP archive as seen by `zipfile.ZipFile.infolist()`. -/
structure ZipMember where
  filename : Str
  file_size : Nat
deriving DecidableEq

/-- Model of `zipfile.ZipInfo.is_dir()`: the stored name ends with `/`. -/
def ZipMember.is_dir (m : ZipMember) : Bool :=
  "/".data.isSuffixOf m.filename

/-- Components of a path string, split on `/`. -/
def splitOnSlash (s : Str) : List Str :=
  match s with
  | [] => [[]]
  | c :: rest =>
    match splitOnSlash rest with
    | [] => [[]]
    | h :: t => if c = '/' then [] :: h :: t else (c :: h) :: t

/-- Lexical normalisation of path components as done by `Path.resolve` on a
non-existing path: empty and `.` components disappear, `..` removes the
preceding component. -/
def normParts (acc : List Str) : List Str → List Str
  | [] => acc
  | p :: rest =>
    if p = [] ∨ p = ".".data then normParts acc rest
    else if p = "..".data then normParts acc.dropLast rest
    else normParts (acc ++ [p]) rest

/-- Model of `str(Path(p).resolve())` for an absolute path `p` that involves no
symbolic link: normalise the components and render them back. -/
def resolvePath (p : Str) : Str :=
  '/' :: (List.intercalate "/".data (normParts [] (splitOnSlash p)))

/-- Model of `pathlib`'s `dest / filename`: an absolute right operand discards
the left one. -/
def pathJoin (dest fn : Str) : Str :=
  match fn with
  | '/' :: _ => fn
  | _ => dest ++ '/' :: fn

/-- The extension whitelist `ALLOWED_ARCHIVE_EXT` of src/api/server.py line 35. -/
def allowed_archive_ext : List Str :=
  [".shp".data, ".shx".data, ".dbf".data, ".prj".data, ".cpg".data]

/-- The per-member body of the `for member in members` loop of
`_safe_extract_zip` (src/api/server.py lines 289-297): `some detail` when the
member raises `HTTPException(400, detail)`, `none` when it passes.  The checks
run in source order: resolved-path prefix test first, then directories are
skipped, then the extension whitelist. -/
def member_violation (dest : Str) (m : ZipMember) : Option Str :=
  if !((resolvePath dest).isPrefixOf (resolvePath (pathJoin dest m.filename))) then
    some "Invalid zip contents.".data
  else if m.is_dir then none
  else
    let ext := toLowerStr (pathSuffix (pathName m.filename))
    if ext ≠ [] ∧ !(allowed_archive_ext.contains ext) then
      some "Zip contains unsupported file types.".data
    else none

/-- Embedding of `_safe_extract_zip` (src/api/server.py lines 282-298).  On
success the full member list is extracted (`zip_ref.extractall`, the final
statement); any failed check raises before that call, so a rejected archive
extracts nothing. -/
def safe_extract_zip (maxFiles maxBytes : Nat) (dest : Str)
    (members : List ZipMember) : Except Str (List ZipMember) :=
  if members.length > maxFiles then .error "Zip file contains too many entries.".data
  else if (members.map (fun m => m.file_size)).sum > maxBytes then
    .error "Zip file is too large to extract.".data
  else
    match members.findSome? (member_violation dest) with
    | some e => .error e
    | none => .ok members

/-- The claim's notion of path traversal: the resolved target does not lie
under the destination directory, compared component-wise (so a sibling whose
name merely extends the destination's name is still outside). -/
def resolvedWithin (dest target : Str) : Bool :=
  (normParts [] (splitOnSlash dest)).isPrefixOf (normParts [] (splitOnSlash target))

/-- Shapely geometries as consumed by `_count_vertices`: coordinates are opaque
integer pairs, a polygon has an exterior ring and a list of interior rings. -/
inductive PyGeom where
  | point (c : Int × Int)
  | lineString (cs : List (Int × Int))
  | polygon (exterior : List (Int × Int)) (interiors : List (List (Int × Int)))
  | multiPolygon (gs : List PyGeom)
  | geometryCollection (gs : List PyGeom)

mutual

/-- Recursion of `_count_vertices` on a non-`None` geometry: polygons sum the
coordinate counts of their rings, multi-polygons recurse over their parts, and
every other geometry type reaches the final `return 0`. -/
def countGeom : PyGeom → Nat
  | .polygon ext ints => ext.length + (ints.map List.length).sum
  | .multiPolygon gs => countGeomList gs
  | _ => 0

/-- Sum of `countGeom` over the parts of a multi-polygon
(`sum(_count_vertices(g) for g in geom.geoms)`). -/
def countGeomList : List PyGeom → Nat
  | [] => 0
  | g :: rest => countGeom g + countGeomList rest

end

/-- Embedding of `_count_vertices` (src/api/server.py lines 361-369); `none`
models a `None` geometry. -/
def count_vertices : Option PyGeom → Nat
  | none => 0
  | some g => countGeom g

/-- Embedding of `_validate_geo_limits` (src/api/server.py lines 372-377) over
the geometry column of the frame: too many features, then too many vertices,
each a 400. -/
def validate_geo_limits (maxFeatures maxVertices : Nat)
    (geoms : List (Option PyGeom)) : Except Nat Unit :=
  if geoms.length > maxFeatures then .error 400
  else if (geoms.map count_vertices).sum > maxVertices then .error 400
  else .ok ()

/-- Outcome of running a Python block: normal return, `HTTPException(status,
detail)`, or any other exception. -/
inductive PyOutcome (α : Type) where
  | ret (a : α)
  | httpExc (status : Nat) (detail : Str)
  | exc
deriving DecidableEq

/-- Outcome of one stage of a request handler's `try` body. -/
inductive StageOutcome where
  | ok
  | http (status : Nat) (detail : Str)
  | raised
deriving DecidableEq

/-- Sequential execution of the stages of a handler's `try` body (upload write,
malware scan, extraction, validations, `_run_analyzer`, output collection): the
first failing stage aborts the block. -/
def runStages : List StageOutcome → PyOutcome Unit
  | [] => .ret ()
  | .ok :: rest => runStages rest
  | .http s d :: _ => .httpExc s d
  | .raised :: _ => .exc

/-- Result of a request handler: the outcome delivered to the framework and
whether the request's run directory was removed by `_cleanup_run_dir`. -/
structure HandlerResult (α : Type) where
  response : PyOutcome α
  runDirRemoved : Bool
deriving DecidableEq

/-- Embedding of the `try/except` wrapper of the `analyze` endpoint
(src/api/server.py lines 545-588): the `except HTTPException` arm cleans the
run directory and re-raises, the `except Exception` arm cleans it and raises a
generic 500; a normal return keeps the directory for later download. -/
def analyze_wrapper (body : PyOutcome Unit) : HandlerResult Unit :=
  match body with
  | .ret a => { response := .ret a, runDirRemoved := false }
  | .httpExc s d => { response := .httpExc s d, runDirRemoved := true }
  | .exc => { response := .httpExc 500 "Unexpected server error.".data,
              runDirRemoved := true }

/-- Embedding of the identically structured `try/except` wrapper of the
`analyze_geojson` endpoint (src/api/server.py lines 601-636). -/
def analyze_geojson_wrapper (body : PyOutcome Unit) : HandlerResult Unit :=
  match body with
  | .ret a => { response := .ret a, runDirRemoved := false }
  | .httpExc s d => { response := .httpExc s d, runDirRemoved := true }
  | .exc => { response := .httpExc 500 "Unexpected server error.".data,
              runDirRemoved := true }

/-- Does a `PyOutcome` carry an error (an exception rather than a return)? -/
def PyOutcome.isFailure {α : Type} : PyOutcome α → Bool
  | .ret _ => false
  | _ => true

/-- A request of the rate limiter: arrival time in seconds and client address. -/
abbrev RateReq := Nat × Str

/-- Embedding of one pass through `rate_limit_middleware` (src/api/server.py
lines 100-109): with a positive limit, the bucket key is `(now // 60, ip)`, the
stored count is incremented (also for rejected requests) and the request is
rejected with HTTP 429 when the new count exceeds the limit.  Returns the
rejection flag and the updated `_RATE_LIMIT` table. -/
def rate_limit_step (limit : Int) (m : List ((Nat × Str) × Nat)) (now : Nat)
    (ip : Str) : Bool × List ((Nat × Str) × Nat) :=
  if limit ≤ 0 then (false, m)
  else
    let key := (now / 60, ip)
    let count := (assocFind key m).getD 0 + 1
    (decide ((count : Int) > limit), assocSet key count m)

/-- Process a trace of requests through the middleware, starting from table
`m`; returns the per-request rejection flags. -/
def rate_limit_go (limit : Int) (m : List ((Nat × Str) × Nat)) :
    List RateReq → List Bool
  | [] => []
  | (t, ip) :: rest =>
    let r := rate_limit_step limit m t ip
    r.1 :: rate_limit_go limit r.2 rest

/-- Rejection flags for a trace of requests hitting a freshly started service
(`_RATE_LIMIT = {}`). -/
def rate_limit_run (limit : Int) (reqs : List RateReq) : List Bool :=
  rate_limit_go limit [] reqs

/-- Same minute-bucket and same client address: the key equality used by the
middleware's table. -/
def sameBucket (a b : RateReq) : Bool :=
  a.1 / 60 = b.1 / 60 ∧ a.2 = b.2

/-- Number of requests strictly before index `i` of the trace that share the
bucket key of request `i`. -/
def bucketPrior (reqs : List RateReq) (i : Nat) : Nat :=
  ((reqs.take i).filter (fun r => sameBucket r (reqs.getD i (0, [])))).length

/-- Number of requests up to and including index `i` that share the client
address of request `i` and arrived within the rolling one-minute window ending
at request `i` (arrival within the last 60 seconds).  This is the count the
claim's rolling-window reading would bound. -/
def rollingCount (reqs : List RateReq) (i : Nat) : Nat :=
  ((reqs.take (i + 1)).filter (fun r =>
    r.2 = (reqs.getD i (0, [])).2 ∧ (reqs.getD i (0, [])).1 - r.1 < 60)).length

/-- Is the geometry of one of the two types (`Polygon`, `MultiPolygon`) that
`_count_vertices` inspects? -/
def isPolygonal : PyGeom → Bool
  | .polygon _ _ => true
  | .multiPolygon _ => true
  | _ => false

/-- `isPolygonal` lifted to the optional geometry column entries. -/
def optPolygonal : Option PyGeom → Bool
  | none => false
  | some g => isPolygonal g

/-- Did the computation succeed (no exception raised)? -/
def exOk {ε α : Type} : Except ε α → Bool
  | .ok _ => true
  | .error _ => false

end ZCA

namespace ZCA

/-! Helper lemmas shared by the claim theorems. -/

/-- A string with no slash is its own basename. -/
theorem pathName_eq_self {s : Str} (h : ∀ c ∈ s, c ≠ '/') : pathName s = s := by
  unfold pathName
  rw [List.takeWhile_eq_self_iff.mpr, List.reverse_reverse]
  intro c hc
  simpa using h c (List.mem_reverse.mp hc)

/-- Updating a key makes it found with its new value. -/
theorem assocFind_set_self {κ α : Type} [DecidableEq κ] (k : κ) (v : α)
    (m : List (κ × α)) : assocFind k (assocSet k v m) = some v := by
  induction m with
  | nil => simp [assocSet, assocFind]
  | cons kv rest ih =>
    by_cases h : kv.1 = k
    · simp [assocSet, assocFind, h]
    · simp [assocSet, assocFind, h, ih]

/-- Updating one key leaves lookups of other keys unchanged. -/
theorem assocFind_set_ne {κ α : Type} [DecidableEq κ] {k' k : κ} (v : α)
    (m : List (κ × α)) (h : k' ≠ k) :
    assocFind k' (assocSet k v m) = assocFind k' m := by
  induction m with
  | nil => simp [assocSet, assocFind, Ne.symm h]
  | cons kv rest ih =>
    by_cases hk : kv.1 = k
    · simp [assocSet, assocFind, hk, Ne.symm h]
    · simp [assocSet, assocFind, hk, ih]

/-- A lookup that misses the left part of an appended table reads the right
part. -/
theorem assocFind_append_of_none {κ α : Type} [DecidableEq κ] {k : κ}
    {t : List (κ × α)} (u : List (κ × α)) (h : assocFind k t = none) :
    assocFind k (t ++ u) = assocFind k u := by
  induction t with
  | nil => rfl
  | cons kv rest ih =>
    obtain ⟨k1, v1⟩ := kv
    by_cases hk : k1 = k
    · simp [assocFind, hk] at h
    · simp only [assocFind, hk, if_false, List.cons_append] at h ⊢
      exact ih h

/-- Inserting an entry makes it retrievable under the `key[:-5]` / `key[-4:]`
pair of keys. -/
theorem jsonLookup_insert {α : Type} (t : List (Str × List (Str × α)))
    (k : Str) (v : α) :
    jsonLookup (jsonInsert t k v) (k.take (k.length - 5))
      (k.drop (k.length - 4)) = some v := by
  unfold jsonInsert jsonLookup
  cases h : assocFind (k.take (k.length - 5)) t with
  | none =>
    simp only [h]
    rw [assocFind_append_of_none _ h]
    simp [assocFind]
  | some inner =>
    simp only [h]
    rw [assocFind_set_self]
    simp [assocFind_set_self]

end ZCA

/-- C3: the statistics table is NOT keyed by "variable = all but the last 4
characters" of the canonical name: for the asset `air_temp_max_1971` the code
keys the table by `air_temp_max` (all but the last 5 characters), and a lookup
under the claim's key `air_temp_max_` finds nothing. -/
theorem c3_counterexample :
    (ZCA.jsonLookup
        (ZCA.build_rasterstats_json
          [("air_temp_max_1971".data, [ZCA.ZonalStats.mk (-45) 198 91 1269])])
        (ZCA.spec_variable_key "air_temp_max_1971".data)
        ("air_temp_max_1971".data.drop ("air_temp_max_1971".data.length - 4))
      = none)
    ∧ ZCA.spec_variable_key "air_temp_max_1971".data = "air_temp_max_".data
    ∧ (ZCA.jsonLookup
        (ZCA.build_rasterstats_json
          [("air_temp_max_1971".data, [ZCA.ZonalStats.mk (-45) 198 91 1269])])
        "air_temp_max".data "1971".data
      = some [ZCA.ZonalStats.mk (-45) 198 91 1269]) := by
  refine ⟨by decide, by decide, by decide⟩

/-- C3 (amended): the table built by `zonal_climate_analysis` splits each
asset's canonical name into variable = all but the last 5 characters (the year
and its `_` separator) and year = the last 4 characters, and maps that variable
to that year to the asset's statistics records. -/
theorem c3_table_keying (pre : List (ZCA.Str × List ZCA.ZonalStats))
    (k : ZCA.Str) (v : List ZCA.ZonalStats) :
    ZCA.jsonLookup (ZCA.build_rasterstats_json (pre ++ [(k, v)]))
      (k.take (k.length - 5)) (k.drop (k.length - 4)) = some v := by
  unfold ZCA.build_rasterstats_json
  rw [List.foldl_append]
  simpa using ZCA.jsonLookup_insert _ k v

/-- C1: entering `_analysis_lock` while the lock file records a live holder
with a timestamp younger than `LOCK_TTL_SECONDS` raises HTTP 429, writes no new
lock and does not start the pipeline subprocess; a lock whose holder is dead
and whose timestamp is at least `LOCK_TTL_SECONDS` old is reclaimed, so the
acquisition succeeds and the pipeline runs. -/
theorem c1_lock_busy_and_reclaim (alive : Int → Bool) (now ttl mypid p t : Int) :
    (alive p = true → now - t < ttl →
      ZCA.run_analyzer_locked alive now ttl mypid (.record (some p) (some t))
        = (false, .error 429, .record (some p) (some t)))
    ∧ (alive p = false → ttl ≤ now - t →
      ZCA.run_analyzer_locked alive now ttl mypid (.record (some p) (some t))
        = (true, .ok (), .absent)) := by
  constructor
  · intro ha hts
    simp [ZCA.run_analyzer_locked, ZCA.analysis_lock_enter, ZCA.cleanup_lock,
      ZCA.pidAlive, ZCA.tsFresh, ha, hts]
  · intro ha hts
    have h1 : ¬ (now - t < ttl) := not_lt.mpr hts
    simp [ZCA.run_analyzer_locked, ZCA.analysis_lock_enter, ZCA.cleanup_lock,
      ZCA.pidAlive, ZCA.tsFresh, ha, h1]

/-- C1 witness: a live fresh holder (pid 5, age 10s, TTL 4h) makes a second
request receive 429 with the lock intact; a dead holder five hours stale is
reclaimed and acquisition succeeds. -/
theorem c1_witness :
    ZCA.run_analyzer_locked (fun _ => true) 100 14400 7 (.record (some 5) (some 90))
      = (false, .error 429, .record (some 5) (some 90))
    ∧ ZCA.run_analyzer_locked (fun _ => false) 100000 14400 7 (.record (some 5) (some 82000))
      = (true, .ok (), .absent) :=
  ⟨(c1_lock_busy_and_reclaim (fun _ => true) 100 14400 7 5 90).1 rfl (by decide),
   (c1_lock_busy_and_reclaim (fun _ => false) 100000 14400 7 5 82000).2 rfl (by decide)⟩

/-- C4: `decompress_file` does NOT require exactly one `.asc` member of a
ZIP-like container — an archive with two `.asc` members decompresses
successfully (the first member is used) instead of raising an error. -/
theorem c4_counterexample :
    ZCA.decompress_file
        { name := "grids_germany_annual_hot_days_201717.asc.gz".data,
          sniffed := some "zip".data, is_zipfile := true,
          zipNames := ["a.asc".data, "b.asc".data], gzipValid := true }
      = .ok "hot_days_2017.asc".data
    ∧ (ZCA.ascMembers ["a.asc".data, "b.asc".data]).length = 2 :=
  ⟨rfl, by decide⟩

/-- C4 (amended): for a ZIP-like container that is not already a final raster
format, `decompress_file` raises an explicit data-integrity error when the
archive holds no `.asc` member, and otherwise succeeds by extracting the first
`.asc` member to the canonically renamed sibling file — a member count greater
than one is not an error. -/
theorem c4_zip_member_selection (f : ZCA.InputFile)
    (h1 : ¬ (ZCA.toLowerStr (ZCA.pathSuffix (ZCA.pathName f.name)) = ".asc".data ∨
        ZCA.toLowerStr (ZCA.pathSuffix (ZCA.pathName f.name)) = ".tif".data ∨
        f.sniffed = some "asc".data ∨ f.sniffed = some "tif".data))
    (h2 : f.is_zipfile = true ∨ f.sniffed = some "zip".data ∨
        ZCA.toLowerStr (ZCA.pathSuffix (ZCA.pathName f.name)) = ".zip".data) :
    (ZCA.ascMembers f.zipNames = [] →
      ZCA.decompress_file f = .error "No .asc file found in archive.".data)
    ∧ (∀ m ms, ZCA.ascMembers f.zipNames = m :: ms →
      ZCA.decompress_file f = .ok (ZCA.rename_dwd_file (ZCA.pathName f.name))) := by
  have hd : ZCA.decompress_file f =
      (match ZCA.ascMembers f.zipNames with
        | [] => .error "No .asc file found in archive.".data
        | _ :: _ => .ok (ZCA.rename_dwd_file (ZCA.pathName f.name))) := by
    simp only [ZCA.decompress_file, ZCA.ascMembers]
    rw [if_neg h1, if_pos h2]
  constructor
  · intro h
    rw [hd, h]
  · intro m ms h
    rw [hd, h]

/-- C4 witness: a mis-labelled `.asc.gz` archive sniffed as ZIP with the single
member `A.ASC` decompresses to the canonically renamed file. -/
theorem c4_witness :
    ZCA.decompress_file
        { name := "grids_germany_annual_hot_days_201717.asc.gz".data,
          sniffed := some "zip".data, is_zipfile := true,
          zipNames := ["A.ASC".data], gzipValid := true }
      = .ok (ZCA.rename_dwd_file
          (ZCA.pathName "grids_germany_annual_hot_days_201717.asc.gz".data)) :=
  (c4_zip_member_selection _ (by decide) (Or.inl rfl)).2 "A.ASC".data [] (by decide)

/-- C6: whichever stage of the `try` body of `analyze` or `analyze_geojson`
fails — with an `HTTPException` (validation, resource exhaustion) or with an
unexpected exception — the handler removes the request's run directory and the
delivered outcome is an error response. -/
theorem c6_failure_cleanup (stages gstages : List ZCA.StageOutcome)
    (h : (ZCA.runStages stages).isFailure = true)
    (hg : (ZCA.runStages gstages).isFailure = true) :
    ((ZCA.analyze_wrapper (ZCA.runStages stages)).runDirRemoved = true
      ∧ (ZCA.analyze_wrapper (ZCA.runStages stages)).response.isFailure = true)
    ∧ ((ZCA.analyze_geojson_wrapper (ZCA.runStages gstages)).runDirRemoved = true
      ∧ (ZCA.analyze_geojson_wrapper (ZCA.runStages gstages)).response.isFailure = true) := by
  constructor
  · cases hb : ZCA.runStages stages with
    | ret a =>
      rw [hb] at h
      simp [ZCA.PyOutcome.isFailure] at h
    | httpExc s d => simp [ZCA.analyze_wrapper, hb, ZCA.PyOutcome.isFailure]
    | exc => simp [ZCA.analyze_wrapper, hb, ZCA.PyOutcome.isFailure]
  · cases hb : ZCA.runStages gstages with
    | ret a =>
      rw [hb] at hg
      simp [ZCA.PyOutcome.isFailure] at hg
    | httpExc s d => simp [ZCA.analyze_geojson_wrapper, hb, ZCA.PyOutcome.isFailure]
    | exc => simp [ZCA.analyze_geojson_wrapper, hb, ZCA.PyOutcome.isFailure]

/-- C6 witness: an upload whose shapefile search raises HTTP 400 and a drawn
geometry whose processing raises an unexpected exception both leave the run
directory removed and deliver an error. -/
theorem c6_witness :
    ((ZCA.analyze_wrapper (ZCA.runStages
        [ZCA.StageOutcome.ok, ZCA.StageOutcome.http 400 "No .shp file found in upload.".data])).runDirRemoved = true
      ∧ (ZCA.analyze_wrapper (ZCA.runStages
        [ZCA.StageOutcome.ok, ZCA.StageOutcome.http 400 "No .shp file found in upload.".data])).response.isFailure = true)
    ∧ ((ZCA.analyze_geojson_wrapper (ZCA.runStages
        [ZCA.StageOutcome.raised])).runDirRemoved = true
      ∧ (ZCA.analyze_geojson_wrapper (ZCA.runStages
        [ZCA.StageOutcome.raised])).response.isFailure = true) :=
  c6_failure_cleanup _ _ (by decide) (by decide)

/-- C7: `delete_raster_files` does NOT delete the georeferenced rasters — the
`.tif` file of a processed asset survives (only `.asc`, `.asc.gz` and `.zip`
files are removed), so the JSON table is not the only durable result. -/
theorem c7_counterexample :
    ZCA.delete_raster_files
        ["air_temp_max_1971.tif".data, "air_temp_max_1971.asc".data,
         "grids_germany_annual_air_temp_max_197117.asc.gz".data]
      = ["air_temp_max_1971.tif".data] := by decide

namespace ZCA

/-- A geometry that is `None` or neither Polygon nor MultiPolygon counts zero
vertices. -/
theorem count_vertices_nonpoly {og : Option PyGeom} (h : optPolygonal og = false) :
    count_vertices og = 0 := by
  cases og with
  | none => rfl
  | some g =>
    cases g with
    | polygon e i => simp [optPolygonal, isPolygonal] at h
    | multiPolygon gs => simp [optPolygonal, isPolygonal] at h
    | point c => rfl
    | lineString cs => rfl
    | geometryCollection gs => rfl

/-- The vertex total of a geometry column equals the vertex total of its
polygonal members alone. -/
theorem vertex_sum_filter (geoms : List (Option PyGeom)) :
    (geoms.map count_vertices).sum
      = ((geoms.filter optPolygonal).map count_vertices).sum := by
  induction geoms with
  | nil => rfl
  | cons og rest ih =>
    by_cases hp : optPolygonal og = true
    · simp [List.filter_cons, hp, ih]
    · have hz : count_vertices og = 0 :=
        count_vertices_nonpoly (Bool.eq_false_iff.mpr hp)
      simp [List.filter_cons, Bool.eq_false_iff.mpr hp, hz, ih]

/-- A `check_if_already_downloaded` success implies every requested link has a
matching local `.tif` stem. -/
theorem check_true_mem {links : List Str} {ex : Bool} {files : List Str}
    (h : check_if_already_downloaded links ex files = true) :
    ∀ l ∈ links, expectedStem l ∈
      (files.filter (fun f => ".tif".data.isSuffixOf f)).map pathStem := by
  intro l hl
  unfold check_if_already_downloaded at h
  by_cases h1 : (!ex || files.isEmpty) = true
  · rw [if_pos h1] at h
    cases h
  · rw [if_neg h1] at h
    by_cases h2 : ((files.filter (fun f => ".tif".data.isSuffixOf f)).map pathStem).isEmpty = true
    · rw [if_pos h2] at h
      cases h
    · rw [if_neg h2] at h
      have hall := List.all_eq_true.mp h _ (List.mem_map.mpr ⟨l, hl, rfl⟩)
      simpa using hall

/-- Success characterisation of `_safe_extract_zip`: extraction happens exactly
when the entry count and total size are within the ceilings and no member
violates a per-member check. -/
theorem safe_ok_iff (maxF maxB : Nat) (dest : Str) (members : List ZipMember) :
    exOk (safe_extract_zip maxF maxB dest members) = true
      ↔ (members.length ≤ maxF
        ∧ (members.map (fun m => m.file_size)).sum ≤ maxB
        ∧ ∀ m ∈ members, member_violation dest m = none) := by
  unfold safe_extract_zip
  by_cases h1 : members.length > maxF
  · rw [if_pos h1]
    simp only [exOk]
    constructor
    · intro h
      cases h
    · rintro ⟨hc, -, -⟩
      omega
  · rw [if_neg h1]
    by_cases h2 : (members.map (fun m => m.file_size)).sum > maxB
    · rw [if_pos h2]
      simp only [exOk]
      constructor
      · intro h
        cases h
      · rintro ⟨-, hc, -⟩
        omega
    · rw [if_neg h2]
      cases hf : members.findSome? (member_violation dest) with
      | some e =>
        simp only [exOk]
        constructor
        · intro h
          cases h
        · rintro ⟨-, -, hall⟩
          obtain ⟨m, hm, hsome⟩ := List.exists_of_findSome?_eq_some hf
          rw [hall m hm] at hsome
          cases hsome
      | none =>
        simp only [exOk]
        constructor
        · intro _
          exact ⟨by omega, by omega, List.findSome?_eq_none_iff.mp hf⟩
        · intro _
          trivial

/-- The only value `_safe_extract_zip` can return is the full member list. -/
theorem safe_ok_val (maxF maxB : Nat) (dest : Str) (members : List ZipMember) :
    ∀ l, safe_extract_zip maxF maxB dest members = .ok l → l = members := by
  intro l h
  unfold safe_extract_zip at h
  by_cases h1 : members.length > maxF
  · rw [if_pos h1] at h
    cases h
  · rw [if_neg h1] at h
    by_cases h2 : (members.map (fun m => m.file_size)).sum > maxB
    · rw [if_pos h2] at h
      cases h
    · rw [if_neg h2] at h
      cases hf : members.findSome? (member_violation dest) with
      | some e =>
        rw [hf] at h
        cases h
      | none =>
        rw [hf] at h
        exact (Except.ok.inj h).symm

/-- A member whose resolved target fails the string-prefix comparison against
the resolved destination is reported as a violation. -/
theorem violation_of_bad_path {dest : Str} {m : ZipMember}
    (h : (resolvePath dest).isPrefixOf (resolvePath (pathJoin dest m.filename)) = false) :
    member_violation dest m = some "Invalid zip contents.".data := by
  unfold member_violation
  rw [h]
  rfl

/-- A non-directory member with a non-empty extension outside the whitelist is
reported as a violation (whether or not its path also fails the prefix test). -/
theorem violation_of_bad_ext {dest : Str} {m : ZipMember}
    (hdir : m.is_dir = false)
    (hne : toLowerStr (pathSuffix (pathName m.filename)) ≠ [])
    (hna : allowed_archive_ext.contains (toLowerStr (pathSuffix (pathName m.filename))) = false) :
    member_violation dest m ≠ none := by
  unfold member_violation
  by_cases hp : (resolvePath dest).isPrefixOf (resolvePath (pathJoin dest m.filename)) = true
  · simp [hp, hdir, hne]
    simpa using hna
  · simp [Bool.eq_false_iff.mpr hp]

end ZCA

/-- C10: `_count_vertices` returns 0 for a `None` geometry and for every
geometry whose type is neither Polygon nor MultiPolygon; consequently the
vertex total that `_validate_geo_limits` compares against `MAX_VERTICES` counts
only polygon ring coordinates — the `.ok` verdict of the vertex ceiling depends
only on the polygonal members of the geometry column. -/
theorem c10_vertex_count :
    (ZCA.count_vertices none = 0)
    ∧ (∀ g : ZCA.PyGeom, ZCA.isPolygonal g = false → ZCA.count_vertices (some g) = 0)
    ∧ (∀ geoms : List (Option ZCA.PyGeom),
        (geoms.map ZCA.count_vertices).sum
          = ((geoms.filter ZCA.optPolygonal).map ZCA.count_vertices).sum)
    ∧ (∀ maxF maxV : Nat, ∀ geoms : List (Option ZCA.PyGeom),
        geoms.length ≤ maxF →
        (ZCA.validate_geo_limits maxF maxV geoms = .ok ()
          ↔ ((geoms.filter ZCA.optPolygonal).map ZCA.count_vertices).sum ≤ maxV)) := by
  refine ⟨rfl, ?_, ZCA.vertex_sum_filter, ?_⟩
  · intro g hg
    exact @ZCA.count_vertices_nonpoly (some g) (by simpa [ZCA.optPolygonal] using hg)
  · intro maxF maxV geoms hlen
    unfold ZCA.validate_geo_limits
    rw [if_neg (by omega : ¬ geoms.length > maxF), ← ZCA.vertex_sum_filter]
    by_cases hs : (geoms.map ZCA.count_vertices).sum > maxV
    · rw [if_pos hs]
      constructor
      · intro h
        cases h
      · intro h
        omega
    · rw [if_neg hs]
      constructor
      · intro _
        omega
      · intro _
        rfl

/-- C10 witness: a point geometry counts zero vertices, and the vertex ceiling
verdict on a mixed column equals the bound on its polygonal members alone. -/
theorem c10_witness :
    ZCA.count_vertices (some (ZCA.PyGeom.point (3, 4))) = 0
    ∧ (ZCA.validate_geo_limits 2000 200000
          [some (ZCA.PyGeom.point (3, 4)),
           some (ZCA.PyGeom.polygon [(0, 0), (1, 0), (1, 1), (0, 0)] [])] = .ok ()
        ↔ (([some (ZCA.PyGeom.point (3, 4)),
             some (ZCA.PyGeom.polygon [(0, 0), (1, 0), (1, 1), (0, 0)] [])].filter
              ZCA.optPolygonal).map ZCA.count_vertices).sum ≤ 200000) :=
  ⟨c10_vertex_count.2.1 _ rfl, c10_vertex_count.2.2.2 2000 200000 _ (by decide)⟩

/-- C8: `check_if_already_downloaded` returns `True` only if every requested
remote link has a local `.tif` whose stem equals the canonicalised,
extension-normalised remote name; a missing directory, an empty directory, and
a directory missing some expected stem all yield `False`. -/
theorem c8_cache_check (links files : List ZCA.Str) :
    (∀ ex, ZCA.check_if_already_downloaded links ex files = true →
      ∀ l ∈ links, ZCA.expectedStem l ∈
        (files.filter (fun f => ".tif".data.isSuffixOf f)).map ZCA.pathStem)
    ∧ (ZCA.check_if_already_downloaded links false files = false)
    ∧ (∀ ex, ZCA.check_if_already_downloaded links ex [] = false)
    ∧ (∀ ex l, l ∈ links →
        ZCA.expectedStem l ∉
          (files.filter (fun f => ".tif".data.isSuffixOf f)).map ZCA.pathStem →
        ZCA.check_if_already_downloaded links ex files = false) := by
  refine ⟨fun ex h => ZCA.check_true_mem h, ?_, ?_, ?_⟩
  · simp [ZCA.check_if_already_downloaded]
  · intro ex
    simp [ZCA.check_if_already_downloaded]
  · intro ex l hl hne
    cases hb : ZCA.check_if_already_downloaded links ex files with
    | false => rfl
    | true => exact absurd (ZCA.check_true_mem hb l hl) hne

/-- C8 witness: a cached `.tif` matching the canonical stem satisfies the
check, and a directory holding only a different year fails it. -/
theorem c8_witness :
    ZCA.expectedStem "https://opendata.dwd.de/a/grids_germany_annual_air_temp_max_195117.asc.gz".data
      ∈ (["air_temp_max_1951.tif".data].filter
          (fun f => ".tif".data.isSuffixOf f)).map ZCA.pathStem
    ∧ ZCA.check_if_already_downloaded
        ["https://opendata.dwd.de/a/grids_germany_annual_air_temp_max_195117.asc.gz".data]
        true ["air_temp_max_1952.tif".data] = false :=
  ⟨(c8_cache_check _ _).1 true (by decide) _ (List.mem_singleton.mpr rfl),
   (c8_cache_check _ _).2.2.2 true _ (List.mem_singleton.mpr rfl) (by decide)⟩

/-- C5: `_safe_extract_zip` does NOT reject every entry whose resolved target
lies outside the destination directory: an entry escaping into a sibling
directory whose name extends the destination's name character-for-character
passes the `startswith` comparison of resolved path strings, and the archive is
extracted although the entry's resolved target is outside the destination. -/
theorem c5_counterexample :
    ZCA.safe_extract_zip 2000 1677721600 "/runs/abc/upload".data
        [{ filename := "../uploadx/evil.shp".data, file_size := 1 }]
      = .ok [{ filename := "../uploadx/evil.shp".data, file_size := 1 }]
    ∧ ZCA.resolvedWithin "/runs/abc/upload".data
        (ZCA.pathJoin "/runs/abc/upload".data "../uploadx/evil.shp".data) = false :=
  ⟨rfl, by decide⟩

/-- C5 (amended): `_safe_extract_zip` rejects with HTTP 400 when the entry
count exceeds `MAX_ZIP_FILES`, when the total uncompressed size exceeds
`MAX_ZIP_UNCOMPRESSED_BYTES`, when any entry's resolved target path fails the
string-prefix comparison against the resolved destination (which catches
`../`-style traversal such as `../evil`, though not a sibling whose name
extends the destination's), or when any non-directory entry carries a
non-empty extension outside the allowed set; all member checks precede
`extractall`, so a rejected archive extracts nothing and a successful call
extracts exactly the full member list after every check has passed. -/
theorem c5_zip_defenses (maxF maxB : Nat) (dest : ZCA.Str)
    (members : List ZCA.ZipMember) :
    (members.length > maxF →
      ZCA.exOk (ZCA.safe_extract_zip maxF maxB dest members) = false)
    ∧ ((members.map (fun m => m.file_size)).sum > maxB →
      ZCA.exOk (ZCA.safe_extract_zip maxF maxB dest members) = false)
    ∧ (∀ m ∈ members,
        (ZCA.resolvePath dest).isPrefixOf
          (ZCA.resolvePath (ZCA.pathJoin dest m.filename)) = false →
        ZCA.exOk (ZCA.safe_extract_zip maxF maxB dest members) = false)
    ∧ (∀ m ∈ members, m.is_dir = false →
        ZCA.toLowerStr (ZCA.pathSuffix (ZCA.pathName m.filename)) ≠ [] →
        ZCA.allowed_archive_ext.contains
          (ZCA.toLowerStr (ZCA.pathSuffix (ZCA.pathName m.filename))) = false →
        ZCA.exOk (ZCA.safe_extract_zip maxF maxB dest members) = false)
    ∧ (∀ l, ZCA.safe_extract_zip maxF maxB dest members = .ok l →
        l = members ∧ members.length ≤ maxF
        ∧ (members.map (fun m => m.file_size)).sum ≤ maxB
        ∧ ∀ m ∈ members, ZCA.member_violation dest m = none) := by
  have hfail : ∀ (hbad : ¬ (members.length ≤ maxF
      ∧ (members.map (fun m => m.file_size)).sum ≤ maxB
      ∧ ∀ m ∈ members, ZCA.member_violation dest m = none)),
      ZCA.exOk (ZCA.safe_extract_zip maxF maxB dest members) = false := by
    intro hbad
    cases hb : ZCA.exOk (ZCA.safe_extract_zip maxF maxB dest members) with
    | false => rfl
    | true => exact absurd ((ZCA.safe_ok_iff maxF maxB dest members).mp hb) hbad
  refine ⟨?_, ?_, ?_, ?_, ?_⟩
  · intro h
    exact hfail (by omega)
  · intro h
    exact hfail (by omega)
  · intro m hm hp
    refine hfail ?_
    rintro ⟨-, -, hall⟩
    have := hall m hm
    rw [ZCA.violation_of_bad_path hp] at this
    cases this
  · intro m hm hdir hne hna
    refine hfail ?_
    rintro ⟨-, -, hall⟩
    exact ZCA.violation_of_bad_ext hdir hne hna (hall m hm)
  · intro l hl
    have hok : ZCA.exOk (ZCA.safe_extract_zip maxF maxB dest members) = true := by
      rw [hl]
      rfl
    obtain ⟨h1, h2, h3⟩ := (ZCA.safe_ok_iff maxF maxB dest members).mp hok
    exact ⟨ZCA.safe_ok_val maxF maxB dest members l hl, h1, h2, h3⟩

/-- C5 witness: a classic `../evil` traversal entry, an oversized archive and a
disallowed `.exe` entry are each rejected without extraction. -/
theorem c5_witness :
    ZCA.exOk (ZCA.safe_extract_zip 2000 1677721600 "/runs/abc/upload".data
        [{ filename := "../evil".data, file_size := 1 }]) = false
    ∧ ZCA.exOk (ZCA.safe_extract_zip 2000 10 "/runs/abc/upload".data
        [{ filename := "a.shp".data, file_size := 11 }]) = false
    ∧ ZCA.exOk (ZCA.safe_extract_zip 2000 1677721600 "/runs/abc/upload".data
        [{ filename := "a.exe".data, file_size := 1 }]) = false :=
  ⟨(c5_zip_defenses 2000 1677721600 "/runs/abc/upload".data _).2.2.1 _
      (List.mem_singleton.mpr rfl) (by decide),
   (c5_zip_defenses 2000 10 "/runs/abc/upload".data _).2.1 (by decide),
   (c5_zip_defenses 2000 1677721600 "/runs/abc/upload".data _).2.2.2.1 _
      (List.mem_singleton.mpr rfl) rfl (by decide) (by decide)⟩

namespace ZCA

/-- Unfolding of one middleware pass with a positive limit. -/
theorem rate_step_pos (limit : Int) (hpos : 0 < limit)
    (m : List ((Nat × Str) × Nat)) (t : Nat) (ip : Str) :
    rate_limit_step limit m t ip
      = (decide ((((assocFind (t / 60, ip) m).getD 0 + 1 : Nat) : Int) > limit),
         assocSet (t / 60, ip) ((assocFind (t / 60, ip) m).getD 0 + 1) m) := by
  unfold rate_limit_step
  rw [if_neg (by omega : ¬ limit ≤ 0)]

/-- `bucketPrior` on a cons: the head contributes when it shares the bucket key
of the indexed request. -/
theorem bucketPrior_cons (r : RateReq) (rest : List RateReq) (j : Nat) :
    bucketPrior (r :: rest) (j + 1)
      = (if sameBucket r (rest.getD j (0, [])) then 1 else 0) + bucketPrior rest j := by
  unfold bucketPrior
  rw [List.take_succ_cons, List.getD_cons_succ]
  simp only [List.filter_cons]
  by_cases h : sameBucket r (rest.getD j (0, [])) = true
  · rw [if_pos h, if_pos h, List.length_cons]
    omega
  · rw [if_neg h, if_neg h]
    omega

/-- `sameBucket` agrees with equality of the middleware's table keys. -/
theorem sameBucket_iff_key (a b : RateReq) :
    sameBucket a b = true ↔ ((a.1 / 60 : Nat), a.2) = (b.1 / 60, b.2) := by
  simp [sameBucket, Prod.ext_iff]

/-- Invariant run of the middleware: starting from any table `m`, the verdict
on request `i` is determined by the stored count for its bucket key plus the
number of earlier trace requests sharing that key. -/
theorem rate_go_spec (limit : Int) (hpos : 0 < limit) :
    ∀ (trace : List RateReq) (m : List ((Nat × Str) × Nat)) (i : Nat),
      i < trace.length →
      (rate_limit_go limit m trace).getD i false
        = decide ((((assocFind ((trace.getD i (0, [])).1 / 60,
            (trace.getD i (0, [])).2) m).getD 0 + bucketPrior trace i + 1 : Nat) : Int)
            > limit) := by
  intro trace
  induction trace with
  | nil =>
    intro m i hi
    cases hi
  | cons r rest ih =>
    intro m i hi
    obtain ⟨t, ip⟩ := r
    show (rate_limit_go limit m ((t, ip) :: rest)).getD i false = _
    unfold rate_limit_go
    rw [rate_step_pos limit hpos]
    match i with
    | 0 =>
      have hbp : bucketPrior ((t, ip) :: rest) 0 = 0 := by
        simp [bucketPrior]
      simp [hbp]
    | Nat.succ j =>
      have hj : j < rest.length := by
        simpa using Nat.lt_of_succ_lt_succ hi
      rw [List.getD_cons_succ, List.getD_cons_succ, ih _ j hj, bucketPrior_cons]
      by_cases hk : ((t / 60 : Nat), ip)
          = ((rest.getD j (0, [])).1 / 60, (rest.getD j (0, [])).2)
      · rw [← hk, assocFind_set_self]
        have hsb : sameBucket (t, ip) (rest.getD j (0, [])) = true :=
          (sameBucket_iff_key _ _).mpr hk
        rw [if_pos hsb, decide_eq_decide]
        simp only [Option.getD_some]
        push_cast
        omega
      · rw [assocFind_set_ne _ _ (by exact fun he => hk he.symm), decide_eq_decide]
        have hsb : sameBucket (t, ip) (rest.getD j (0, [])) = false := by
          cases hb : sameBucket (t, ip) (rest.getD j (0, [])) with
          | false => rfl
          | true => exact absurd ((sameBucket_iff_key _ _).mp hb) hk
        rw [hsb]
        simp

end ZCA

/-- C9: requests are NOT limited over a rolling one-minute window: four
same-address requests arriving at seconds 58, 59, 60 and 61 — so that the third
already exceeds a limit of 2 within the rolling minute — are all accepted,
because the code buckets requests by calendar minute (`now // 60`) and the
burst straddles a bucket boundary. -/
theorem c9_counterexample :
    ZCA.rate_limit_run 2
        [(58, "a".data), (59, "a".data), (60, "a".data), (61, "a".data)]
      = [false, false, false, false]
    ∧ ZCA.rollingCount
        [(58, "a".data), (59, "a".data), (60, "a".data), (61, "a".data)] 2 = 3
    ∧ (2 : Int) < 3 :=
  ⟨by decide, by decide, by decide⟩

/-- C9 (amended): with a positive `RATE_LIMIT_PER_MIN`, a request is rejected
with HTTP 429 exactly when the number of earlier requests from the same client
address in the same fixed calendar-minute bucket (`now // 60`) has already
reached the limit — a fixed-window, per-address cap applied by the middleware
to every request of the service. -/
theorem c9_fixed_window (limit : Int) (trace : List ZCA.RateReq) (i : Nat)
    (hpos : 0 < limit) (hi : i < trace.length) :
    (ZCA.rate_limit_run limit trace).getD i false
      = decide (((ZCA.bucketPrior trace i + 1 : Nat) : Int) > limit) := by
  unfold ZCA.rate_limit_run
  rw [ZCA.rate_go_spec limit hpos trace [] i hi]
  have h0 : (ZCA.assocFind ((trace.getD i (0, [])).1 / 60, (trace.getD i (0, [])).2)
      ([] : List ((Nat × ZCA.Str) × Nat))).getD 0 = 0 := rfl
  rw [h0, Nat.zero_add]

/-- C9 witness: with limit 1, the second same-minute request from an address is
rejected. -/
theorem c9_witness :
    (ZCA.rate_limit_run 1 [(0, "a".data), (30, "a".data)]).getD 1 false
      = decide (((ZCA.bucketPrior [(0, "a".data), (30, "a".data)] 1 + 1 : Nat) : Int) > 1) :=
  c9_fixed_window 1 [(0, "a".data), (30, "a".data)] 1 (by decide) (by decide)

namespace ZCA

/-! Helper lemmas for the `rename_dwd_file` characterisation (claim C2). -/

theorem replaceAllAux_skip (pat rep : Str) :
    ∀ (l t : Str), replaceAllAux pat rep l.length (l ++ t) = replaceAllAux pat rep 0 t := by
  intro l
  induction l with
  | nil => intro t; rfl
  | cons c cs ih => intro t; exact ih t

theorem replaceAll_head (pat rep t : Str) (hne : pat ≠ []) :
    replaceAll pat rep (pat ++ t) = rep ++ replaceAll pat rep t := by
  unfold replaceAll
  rw [if_neg hne, if_neg hne]
  cases pat with
  | nil => exact absurd rfl hne
  | cons p ps =>
    have hpre : (p :: ps).isPrefixOf (p :: (ps ++ t)) = true := by
      rw [show p :: (ps ++ t) = (p :: ps) ++ t from rfl]
      simp
    show replaceAllAux (p :: ps) rep 0 (p :: (ps ++ t)) = _
    rw [replaceAllAux, if_pos hpre]
    congr 1
    exact replaceAllAux_skip (p :: ps) rep ps t

theorem replaceAllAux_no_substr (pat rep : Str) :
    ∀ s : Str, hasSubstr pat s = false → replaceAllAux pat rep 0 s = s := by
  intro s
  induction s with
  | nil => intro _; rfl
  | cons c rest ih =>
    intro h
    unfold hasSubstr at h
    rw [Bool.or_eq_false_iff] at h
    rw [replaceAllAux, if_neg (by simp [h.1]), ih h.2]

theorem replaceAll_no_substr (pat rep s : Str) (hne : pat ≠ [])
    (h : hasSubstr pat s = false) : replaceAll pat rep s = s := by
  unfold replaceAll
  rw [if_neg hne]
  exact replaceAllAux_no_substr pat rep s h

theorem stripDwd_ascgz (core : Str) :
    stripDwdSuffix (core ++ ".asc.gz".data) = core := by
  have h1 : ".asc.gz".data.isSuffixOf (core ++ ".asc.gz".data) = true := by simp
  unfold stripDwdSuffix
  rw [if_pos h1, List.length_append]
  have h7 : ".asc.gz".data.length = 7 := rfl
  rw [h7, Nat.add_sub_cancel]
  exact List.take_left' rfl

theorem rstrip_snoc {c : Char} (s : Str) (h : c ≠ '_') :
    rstripUnderscore (s ++ [c]) = s ++ [c] := by
  unfold rstripUnderscore
  simp [List.dropWhile_cons, h]

theorem noslash_append {a b : Str} (ha : ∀ c ∈ a, c ≠ '/') (hb : ∀ c ∈ b, c ≠ '/') :
    ∀ c ∈ a ++ b, c ≠ '/' := by
  intro c hc
  rcases List.mem_append.mp hc with h | h
  exacts [ha c h, hb c h]

theorem digit_facts {c : Char} (h : c.isDigit = true) : c ≠ '_' ∧ c ≠ '/' := by
  constructor <;> intro he <;> subst he <;> exact absurd h (by decide)

/-- Canonical renaming keeps a literal `_1917` year tail unshortened. -/
theorem rename_keep_1917 (stem : Str) (hs : ∀ c ∈ stem, c ≠ '/')
    (hsub : hasSubstr "grids_germany_annual_".data (stem ++ "_1917.asc.gz".data) = false) :
    rename_dwd_file ("grids_germany_annual_".data ++ (stem ++ "_1917.asc.gz".data))
      = stem ++ "_1917.asc".data := by
  simp only [rename_dwd_file]
  rw [pathName_eq_self (noslash_append (by decide) (noslash_append hs (by decide))),
      replaceAll_head _ _ _ (by decide), replaceAll_no_substr _ _ _ (by decide) hsub,
      List.nil_append]
  have hr : stem ++ "_1917.asc.gz".data = (stem ++ "_1917".data) ++ ".asc.gz".data := by
    simp
  rw [hr, stripDwd_ascgz]
  have hc : ("_1917".data.isSuffixOf (stem ++ "_1917".data)
      || "_2017".data.isSuffixOf (stem ++ "_1917".data)) = true := by
    simp
  rw [if_pos hc]
  have hsnoc : stem ++ "_1917".data = (stem ++ "_191".data) ++ ['7'] := by simp
  rw [hsnoc, rstrip_snoc _ (by decide)]
  simp

/-- Canonical renaming keeps a literal `_2017` year tail unshortened. -/
theorem rename_keep_2017 (stem : Str) (hs : ∀ c ∈ stem, c ≠ '/')
    (hsub : hasSubstr "grids_germany_annual_".data (stem ++ "_2017.asc.gz".data) = false) :
    rename_dwd_file ("grids_germany_annual_".data ++ (stem ++ "_2017.asc.gz".data))
      = stem ++ "_2017.asc".data := by
  simp only [rename_dwd_file]
  rw [pathName_eq_self (noslash_append (by decide) (noslash_append hs (by decide))),
      replaceAll_head _ _ _ (by decide), replaceAll_no_substr _ _ _ (by decide) hsub,
      List.nil_append]
  have hr : stem ++ "_2017.asc.gz".data = (stem ++ "_2017".data) ++ ".asc.gz".data := by
    simp
  rw [hr, stripDwd_ascgz]
  have hc : ("_1917".data.isSuffixOf (stem ++ "_2017".data)
      || "_2017".data.isSuffixOf (stem ++ "_2017".data)) = true := by
    simp
  rw [if_pos hc]
  have hsnoc : stem ++ "_2017".data = (stem ++ "_201".data) ++ ['7'] := by simp
  rw [hsnoc, rstrip_snoc _ (by decide)]
  simp


/-- Canonical renaming shortens a `YYYY17` tail to the four-digit year. -/
theorem rename_drop17 (stem : Str) (d1 d2 d3 d4 : Char)
    (h1 : d1.isDigit = true) (h2 : d2.isDigit = true)
    (h3 : d3.isDigit = true) (h4 : d4.isDigit = true)
    (hs : ∀ c ∈ stem, c ≠ '/')
    (hsub : hasSubstr "grids_germany_annual_".data
      (stem ++ ('_' :: d1 :: d2 :: d3 :: d4 :: "17.asc.gz".data)) = false) :
    rename_dwd_file ("grids_germany_annual_".data
        ++ (stem ++ ('_' :: d1 :: d2 :: d3 :: d4 :: "17.asc.gz".data)))
      = stem ++ ('_' :: d1 :: d2 :: d3 :: d4 :: ".asc".data) := by
  have hds : ∀ c ∈ ('_' :: d1 :: d2 :: d3 :: d4 :: "17.asc.gz".data), c ≠ '/' := by
    have hfront : ∀ c ∈ ['_', d1, d2, d3, d4], c ≠ '/' := by
      intro c hc
      simp only [List.mem_cons] at hc
      rcases hc with rfl | rfl | rfl | rfl | rfl | hc
      · decide
      · exact (digit_facts h1).2
      · exact (digit_facts h2).2
      · exact (digit_facts h3).2
      · exact (digit_facts h4).2
      · cases hc
    exact noslash_append hfront (by decide)
  simp only [rename_dwd_file]
  rw [pathName_eq_self (noslash_append (by decide) (noslash_append hs hds)),
      replaceAll_head _ _ _ (by decide), replaceAll_no_substr _ _ _ (by decide) hsub,
      List.nil_append]
  have hr : stem ++ ('_' :: d1 :: d2 :: d3 :: d4 :: "17.asc.gz".data)
      = (stem ++ ['_', d1, d2, d3, d4, '1', '7']) ++ ".asc.gz".data := by
    simp
  rw [hr, stripDwd_ascgz]
  have hb2 : ('_' == d2) = false :=
    beq_eq_false_iff_ne.mpr (Ne.symm (digit_facts h2).1)
  have hc1 : "_1917".data.isSuffixOf (stem ++ ['_', d1, d2, d3, d4, '1', '7']) = false := by
    simp [List.isSuffixOf, List.isPrefixOf, hb2]
  have hc2 : "_2017".data.isSuffixOf (stem ++ ['_', d1, d2, d3, d4, '1', '7']) = false := by
    simp [List.isSuffixOf, List.isPrefixOf, hb2]
  have hc3 : "17".data.isSuffixOf (stem ++ ['_', d1, d2, d3, d4, '1', '7']) = true := by
    simp [List.isSuffixOf, List.isPrefixOf]
  rw [if_neg (by simp [hc1, hc2]), if_pos hc3]
  have htake : (stem ++ ['_', d1, d2, d3, d4, '1', '7']).take
      ((stem ++ ['_', d1, d2, d3, d4, '1', '7']).length - 2)
      = stem ++ ['_', d1, d2, d3, d4] := by
    have he : stem ++ ['_', d1, d2, d3, d4, '1', '7']
        = (stem ++ ['_', d1, d2, d3, d4]) ++ ['1', '7'] := by simp
    rw [he, List.take_left']
    simp
  rw [htake]
  have hsnoc : stem ++ ['_', d1, d2, d3, d4] = (stem ++ ['_', d1, d2, d3]) ++ [d4] := by
    simp
  rw [hsnoc, rstrip_snoc _ (digit_facts h4).1]
  simp

/-- Canonical renaming leaves a four-digit year tail not ending in `17` untouched. -/
theorem rename_keep_year (stem : Str) (d1 d2 d3 d4 : Char)
    (h1 : d1.isDigit = true) (h2 : d2.isDigit = true)
    (h3 : d3.isDigit = true) (h4 : d4.isDigit = true)
    (h17 : ¬(d3 = '1' ∧ d4 = '7'))
    (hs : ∀ c ∈ stem, c ≠ '/')
    (hsub : hasSubstr "grids_germany_annual_".data
      (stem ++ ('_' :: d1 :: d2 :: d3 :: d4 :: ".asc.gz".data)) = false) :
    rename_dwd_file ("grids_germany_annual_".data
        ++ (stem ++ ('_' :: d1 :: d2 :: d3 :: d4 :: ".asc.gz".data)))
      = stem ++ ('_' :: d1 :: d2 :: d3 :: d4 :: ".asc".data) := by
  have hds : ∀ c ∈ ('_' :: d1 :: d2 :: d3 :: d4 :: ".asc.gz".data), c ≠ '/' := by
    have hfront : ∀ c ∈ ['_', d1, d2, d3, d4], c ≠ '/' := by
      intro c hc
      simp only [List.mem_cons] at hc
      rcases hc with rfl | rfl | rfl | rfl | rfl | hc
      · decide
      · exact (digit_facts h1).2
      · exact (digit_facts h2).2
      · exact (digit_facts h3).2
      · exact (digit_facts h4).2
      · cases hc
    exact noslash_append hfront (by decide)
  simp only [rename_dwd_file]
  rw [pathName_eq_self (noslash_append (by decide) (noslash_append hs hds)),
      replaceAll_head _ _ _ (by decide), replaceAll_no_substr _ _ _ (by decide) hsub,
      List.nil_append]
  have hr : stem ++ ('_' :: d1 :: d2 :: d3 :: d4 :: ".asc.gz".data)
      = (stem ++ ['_', d1, d2, d3, d4]) ++ ".asc.gz".data := by
    simp
  rw [hr, stripDwd_ascgz]
  have hfalse : ∀ pat : Str, pat = "_1917".data ∨ pat = "_2017".data ∨ pat = "17".data →
      pat.isSuffixOf (stem ++ ['_', d1, d2, d3, d4]) = false := by
    intro pat hp
    by_cases hd4 : d4 = '7'
    · have hd3 : ('1' == d3) = false := by
        rw [beq_eq_false_iff_ne]
        intro he
        exact h17 ⟨he.symm, hd4⟩
      rcases hp with rfl | rfl | rfl <;> simp [List.isSuffixOf, List.isPrefixOf, hd3]
    · have hd4' : ('7' == d4) = false := by
        rw [beq_eq_false_iff_ne]
        intro he
        exact hd4 he.symm
      rcases hp with rfl | rfl | rfl <;> simp [List.isSuffixOf, List.isPrefixOf, hd4']
  rw [if_neg (by simp [hfalse _ (Or.inl rfl), hfalse _ (Or.inr (Or.inl rfl))]),
      if_neg (by simp [hfalse _ (Or.inr (Or.inr rfl))])]
  have hsnoc : stem ++ ['_', d1, d2, d3, d4] = (stem ++ ['_', d1, d2, d3]) ++ [d4] := by
    simp
  rw [hsnoc, rstrip_snoc _ (digit_facts h4).1]
  simp

end ZCA

/-- C2: `rename_dwd_file` strips the fixed `grids_germany_annual_` prefix and
one known compressed-format suffix, and normalises the year tail: the claim's
example maps as stated; a name ending in the literal `_1917` or `_2017` is NOT
shortened; a name whose tail writes the year with the extra `17` period marker
(`YYYY17`) IS reduced to the 4-digit year; and a plain 4-digit year tail not
ending in `17` is kept.  The well-formedness hypotheses say the variable stem
contains no path separator and the fixed prefix occurs nowhere else in the
name. -/
theorem c2_rename_canonical :
    (ZCA.rename_dwd_file "grids_germany_annual_air_temp_max_1971.asc.gz".data
      = "air_temp_max_1971.asc".data)
    ∧ (∀ stem : ZCA.Str, (∀ c ∈ stem, c ≠ '/') →
        ZCA.hasSubstr "grids_germany_annual_".data (stem ++ "_1917.asc.gz".data) = false →
        ZCA.rename_dwd_file ("grids_germany_annual_".data ++ (stem ++ "_1917.asc.gz".data))
          = stem ++ "_1917.asc".data)
    ∧ (∀ stem : ZCA.Str, (∀ c ∈ stem, c ≠ '/') →
        ZCA.hasSubstr "grids_germany_annual_".data (stem ++ "_2017.asc.gz".data) = false →
        ZCA.rename_dwd_file ("grids_germany_annual_".data ++ (stem ++ "_2017.asc.gz".data))
          = stem ++ "_2017.asc".data)
    ∧ (∀ (stem : ZCA.Str) (d1 d2 d3 d4 : Char),
        d1.isDigit = true → d2.isDigit = true → d3.isDigit = true → d4.isDigit = true →
        (∀ c ∈ stem, c ≠ '/') →
        ZCA.hasSubstr "grids_germany_annual_".data
          (stem ++ ('_' :: d1 :: d2 :: d3 :: d4 :: "17.asc.gz".data)) = false →
        ZCA.rename_dwd_file ("grids_germany_annual_".data
            ++ (stem ++ ('_' :: d1 :: d2 :: d3 :: d4 :: "17.asc.gz".data)))
          = stem ++ ('_' :: d1 :: d2 :: d3 :: d4 :: ".asc".data))
    ∧ (∀ (stem : ZCA.Str) (d1 d2 d3 d4 : Char),
        d1.isDigit = true → d2.isDigit = true → d3.isDigit = true → d4.isDigit = true →
        ¬(d3 = '1' ∧ d4 = '7') →
        (∀ c ∈ stem, c ≠ '/') →
        ZCA.hasSubstr "grids_germany_annual_".data
          (stem ++ ('_' :: d1 :: d2 :: d3 :: d4 :: ".asc.gz".data)) = false →
        ZCA.rename_dwd_file ("grids_germany_annual_".data
            ++ (stem ++ ('_' :: d1 :: d2 :: d3 :: d4 :: ".asc.gz".data)))
          = stem ++ ('_' :: d1 :: d2 :: d3 :: d4 :: ".asc".data)) :=
  ⟨by decide,
   fun stem hs hsub => ZCA.rename_keep_1917 stem hs hsub,
   fun stem hs hsub => ZCA.rename_keep_2017 stem hs hsub,
   fun stem d1 d2 d3 d4 h1 h2 h3 h4 hs hsub =>
     ZCA.rename_drop17 stem d1 d2 d3 d4 h1 h2 h3 h4 hs hsub,
   fun stem d1 d2 d3 d4 h1 h2 h3 h4 h17 hs hsub =>
     ZCA.rename_keep_year stem d1 d2 d3 d4 h1 h2 h3 h4 h17 hs hsub⟩

/-- C2 witness: the 1917 exception, the 2017 exception, a `195117` tail
shortened to `1951`, and a plain `1971` tail kept, each at a concrete DWD
name. -/
theorem c2_witness :
    ZCA.rename_dwd_file
        ("grids_germany_annual_".data ++ ("precipitation".data ++ "_1917.asc.gz".data))
      = "precipitation".data ++ "_1917.asc".data
    ∧ ZCA.rename_dwd_file
        ("grids_germany_annual_".data ++ ("hot_days".data ++ "_2017.asc.gz".data))
      = "hot_days".data ++ "_2017.asc".data
    ∧ ZCA.rename_dwd_file
        ("grids_germany_annual_".data
          ++ ("frost_days".data ++ ('_' :: '1' :: '9' :: '5' :: '1' :: "17.asc.gz".data)))
      = "frost_days".data ++ ('_' :: '1' :: '9' :: '5' :: '1' :: ".asc".data)
    ∧ ZCA.rename_dwd_file
        ("grids_germany_annual_".data
          ++ ("air_temp_max".data ++ ('_' :: '1' :: '9' :: '7' :: '1' :: ".asc.gz".data)))
      = "air_temp_max".data ++ ('_' :: '1' :: '9' :: '7' :: '1' :: ".asc".data) :=
  ⟨c2_rename_canonical.2.1 "precipitation".data (by decide) (by decide),
   c2_rename_canonical.2.2.1 "hot_days".data (by decide) (by decide),
   c2_rename_canonical.2.2.2.1 "frost_days".data '1' '9' '5' '1'
     (by decide) (by decide) (by decide) (by decide) (by decide) (by decide),
   c2_rename_canonical.2.2.2.2 "air_temp_max".data '1' '9' '7' '1'
     (by decide) (by decide) (by decide) (by decide) (by decide) (by decide) (by decide)⟩

namespace ZCA

/-- A `.tif` file matches none of the deletion patterns of
`delete_raster_files`. -/
theorem tif_not_matched {f : Str} (h : ".tif".data.isSuffixOf f = true) :
    (".asc".data.isSuffixOf f || ".asc.gz".data.isSuffixOf f ||
      ".zip".data.isSuffixOf f) = false := by
  rw [List.isSuffixOf] at h
  cases hr : f.reverse with
  | nil =>
    rw [hr] at h
    simp [List.isPrefixOf] at h
  | cons c cs =>
    rw [hr] at h
    have hc : 'f' = c := by
      have hh := h
      simp only [List.isPrefixOf, Bool.and_eq_true, beq_iff_eq] at hh
      exact hh.1
    subst hc
    simp [List.isSuffixOf, List.isPrefixOf, hr]

end ZCA

/-- C7 (amended): after aggregation `delete_raster_files` removes from the
raster folder every decompressed `.asc` file and every raw compressed archive
(`.asc.gz`, `.zip`), while the georeferenced `.tif` rasters are retained —
these serve the materialization cache consulted by
`check_if_already_downloaded`, so the persisted JSON table is not the only
durable artifact. -/
theorem c7_raster_cleanup (files : List ZCA.Str) (f : ZCA.Str) (hf : f ∈ files) :
    ((".asc".data.isSuffixOf f || ".asc.gz".data.isSuffixOf f ||
        ".zip".data.isSuffixOf f) = true → f ∉ ZCA.delete_raster_files files)
    ∧ (".tif".data.isSuffixOf f = true → f ∈ ZCA.delete_raster_files files) := by
  constructor
  · intro hm hmem
    unfold ZCA.delete_raster_files at hmem
    have hp := (List.mem_filter.mp hmem).2
    rw [hm] at hp
    cases hp
  · intro ht
    unfold ZCA.delete_raster_files
    refine List.mem_filter.mpr ⟨hf, ?_⟩
    rw [ZCA.tif_not_matched ht]
    rfl

/-- C7 witness: the decompressed file and the raw archive of an asset are
deleted; its georeferenced raster survives. -/
theorem c7_witness :
    "air_temp_max_1971.asc".data ∉
      ZCA.delete_raster_files
        ["air_temp_max_1971.asc".data, "air_temp_max_1971.tif".data]
    ∧ "air_temp_max_1971.tif".data ∈
      ZCA.delete_raster_files
        ["air_temp_max_1971.asc".data, "air_temp_max_1971.tif".data] :=
  ⟨(c7_raster_cleanup _ _ (by decide)).1 (by decide),
   (c7_raster_cleanup _ _ (by decide)).2 (by decide)⟩
